import Mathlib

/-!
Verification of the git-deploy batch deployer (deploy.go, params.go) against
its specification. The Go functions are shallowly embedded: file access and
CSV decoding are abstracted by passing the parsed records directly, external
collaborators (GCS upload, git plumbing, the renderer process) are abstracted
by outcome parameters, and machine integers are modelled as Nat or Int.
-/

namespace GitDeploy

/-- Models Go filepath.Join for clean path components that contain no
separator and no dot segments: an empty first component yields the second,
an empty second yields the first, otherwise the two are joined with a single
slash. -/
def pathJoin (a b : String) : String :=
  if a = "" then b else if b = "" then a else a ++ "/" ++ b

/-- Errors surfaced by the inventory functions of deploy.go.
The constructor fieldsNotFound models FieldsNotFoundError with its Fields
slice; panicOutOfRange models the Go runtime panic raised by the expression
records[0] when the parsed CSV holds no records at all. -/
inductive InvErr
  | fieldsNotFound (fields : List String)
  | panicOutOfRange
deriving DecidableEq, Repr

/-- Decidable equality for Except values, so that concrete runs of the
embedded functions can be checked by evaluation. -/
instance {ε α : Type} [DecidableEq ε] [DecidableEq α] : DecidableEq (Except ε α) :=
  fun x y =>
    match x, y with
    | .error a, .error b =>
      if h : a = b then isTrue (by rw [h])
      else isFalse (fun hh => by cases hh; exact h rfl)
    | .ok a, .ok b =>
      if h : a = b then isTrue (by rw [h])
      else isFalse (fun hh => by cases hh; exact h rfl)
    | .error _, .ok _ => isFalse (fun hh => by cases hh)
    | .ok _, .error _ => isFalse (fun hh => by cases hh)

/-- Go findFieldIndices (deploy.go 392-418): on an empty header it fails
naming every requested field; otherwise it scans the header once per
requested field, records the first occurrence index of each found field, and
fails naming the missing fields in the requested order when any is missing.
On success the recorded index of each field is its first occurrence in the
header, here written with List.indexOf. -/
def findFieldIndices (header : List String) (fields : List String) :
    Except InvErr (List (String × Nat)) :=
  if header.length = 0 then .error (.fieldsNotFound fields)
  else
    let missingFields := fields.filter (fun f => ¬ header.contains f)
    if missingFields.length > 0 then .error (.fieldsNotFound missingFields)
    else .ok (fields.map (fun f => (f, header.indexOf f)))

/-- Indexing the Go map returned by findFieldIndices: a missing key gives the
zero value, as in Go. -/
def fieldIdx (indices : List (String × Nat)) (f : String) : Nat :=
  (indices.lookup f).getD 0

/-- Go strings.Trim: removes leading and trailing characters belonging to the
cutset. -/
def goTrim (s : String) (cutset : List Char) : String :=
  String.mk
    (((s.data.dropWhile (fun c => cutset.contains c)).reverse.dropWhile
      (fun c => cutset.contains c)).reverse)

/-- Go strings.Split with a one-character separator, written over the
character list of the string: like Go, splitting the empty string yields the
one-element list holding the empty string. -/
def splitOnCharAux (sep : Char) : List Char → List Char → List (List Char)
  | [], acc => [acc.reverse]
  | c :: rest, acc =>
    if c = sep then acc.reverse :: splitOnCharAux sep rest []
    else splitOnCharAux sep rest (c :: acc)

/-- Splits a character list at every occurrence of the separator. -/
def splitOnChar (sep : Char) (l : List Char) : List (List Char) :=
  splitOnCharAux sep l []

/-- The tag list of a cluster_tags cell (deploy.go 475): Go
strings.Split(strings.Trim(cell, quote-space), comma). -/
def parseTags (cell : String) : List String :=
  (splitOnChar ',' (goTrim cell ['"', ' ']).data).map String.mk

/-- Go matchesAnyTags (deploy.go 420-427). -/
def matchesAnyTags (tags matchTags : List String) : Bool :=
  if matchTags.length = 0 then false
  else tags.any (fun tag => matchTags.contains tag)

/-- Go matchesAllTags (deploy.go 429-439). -/
def matchesAllTags (tags matchTags : List String) : Bool :=
  if matchTags.length = 0 then false
  else matchTags.all (fun tag => tags.contains tag)

/-- The body of the selection loop of determineClustersToUpdate
(deploy.go 464-485) for one data record: none when the record is skipped,
some of its cluster name cell when it is appended. Cell access uses a
default value that rectangular CSV records (guaranteed by encoding/csv)
never reach. -/
def recordSelection (clusterGroup : String)
    (matchAny matchAll : List String)
    (clusterNameIndex clusterGroupIndex clusterTagsIndex : Nat)
    (record : List String) : Option String :=
  if clusterGroup ≠ record.getD clusterGroupIndex "" then none
  else
    let clusterName := record.getD clusterNameIndex ""
    if matchAny.length = 0 ∧ matchAll.length = 0 then some clusterName
    else
      let clusterTags := parseTags (record.getD clusterTagsIndex "")
      if matchAny.length > 0 then
        if matchesAnyTags clusterTags matchAny then some clusterName else none
      else
        if matchesAllTags clusterTags matchAll then some clusterName else none

/-- Go determineClustersToUpdate (deploy.go 441-488), modelled over the parsed
CSV records (file opening and CSV decoding abstracted away). The header is
records[0]; for an empty record list that expression panics in Go. Each data
record contributes its cluster name, or nothing, in file row order. -/
def determineClustersToUpdate (records : List (List String))
    (clusterGroup : String)
    (matchClustersHavingAnyListedTag matchClustersHavingAllListedTags : List String) :
    Except InvErr (List String) :=
  match records with
  | [] => .error .panicOutOfRange
  | header :: rows =>
    match findFieldIndices header ["cluster_name", "cluster_group", "cluster_tags"] with
    | .error e => .error e
    | .ok fieldIndices =>
      let clusterNameIndex := fieldIdx fieldIndices "cluster_name"
      let clusterGroupIndex := fieldIdx fieldIndices "cluster_group"
      let clusterTagsIndex := fieldIdx fieldIndices "cluster_tags"
      .ok (rows.filterMap
        (recordSelection clusterGroup matchClustersHavingAnyListedTag
          matchClustersHavingAllListedTags clusterNameIndex clusterGroupIndex
          clusterTagsIndex))

/-- The selection predicate written from the words of the specification, for
comparison with the code: a row is selected iff its cluster_group cell equals
the requested group and the precedence tag policy holds. Non-empty matchAny
requires the tag set to intersect matchAny; otherwise non-empty matchAll
requires the tag set to contain every tag of matchAll; otherwise every row of
the group passes. -/
def specSelected (clusterGroup : String) (matchAny matchAll : List String)
    (rowGroup : String) (tags : List String) : Bool :=
  rowGroup = clusterGroup &&
    (if matchAny ≠ [] then tags.any (fun t => matchAny.contains t)
     else if matchAll ≠ [] then matchAll.all (fun t => tags.contains t)
     else true)

/-- The body of the rewrite loop of
updatePlatformAndWorkloadRepositoryRevision (deploy.go 521-528) for one
record: the platform cell is overwritten first, and the cluster name cell is
read again for the workload condition, exactly as the Go loop mutates the
record in place. -/
def updateRecord (clusterNames : List String)
    (platformRevision workloadRevision : String)
    (clusterNameIndex platformRevisionIndex workloadRevisionIndex : Nat)
    (record : List String) : List String :=
  let record1 :=
    if clusterNames.contains (record.getD clusterNameIndex "") && platformRevision.length > 0
    then record.set platformRevisionIndex platformRevision else record
  if clusterNames.contains (record1.getD clusterNameIndex "") && workloadRevision.length > 0
  then record1.set workloadRevisionIndex workloadRevision else record1

/-- Go updatePlatformAndWorkloadRepositoryRevision (deploy.go 490-537),
modelled over parsed CSV records at cell granularity (the byte-level CSV
round trip through encoding/csv is abstracted away). Note that the Go loop
ranges over records, which includes the header row, so the header is mapped
through the same per-record update; records[0] panics on an empty record
list. -/
def updatePlatformAndWorkloadRepositoryRevision (records : List (List String))
    (clusterNames : List String) (platformRevision workloadRevision : String) :
    Except InvErr (List (List String)) :=
  match records with
  | [] => .error .panicOutOfRange
  | header :: rest =>
    match findFieldIndices header
        ["cluster_name", "platform_repository_revision", "workload_repository_revision"] with
    | .error e => .error e
    | .ok fieldIndices =>
      let clusterNameIndex := fieldIdx fieldIndices "cluster_name"
      let platformRevisionIndex := fieldIdx fieldIndices "platform_repository_revision"
      let workloadRevisionIndex := fieldIdx fieldIndices "workload_repository_revision"
      .ok ((header :: rest).map
        (updateRecord clusterNames platformRevision workloadRevision
          clusterNameIndex platformRevisionIndex workloadRevisionIndex))

/-- Go slice expression l[i:e] over a slice of length N: defined for
0 ≤ i ≤ e ≤ N, otherwise the Go runtime panics, modelled as none. -/
def goSlice (l : List α) (i e : Int) : Option (List α) :=
  if 0 ≤ i ∧ i ≤ e ∧ e ≤ (l.length : Int) then
    some ((l.drop i.toNat).take (e - i).toNat)
  else none

/-- The effective batch size of deploy (deploy.go 138-143): the configured
hydrationBatchSize when positive, else the number of selected clusters. -/
def effBatchSize (numClusters : Nat) (rawBatchSize : Int) : Nat :=
  if rawBatchSize > 0 then rawBatchSize.toNat else numClusters

/-- numBatches of deploy (deploy.go 144), the Go expression
int(math.Ceil(float64(N) / float64(batchSize))). The float computation is
exact for the cluster counts at play, so it is modelled as ceiling division;
a zero batchSize is only reachable when no clusters were selected, where the
loop never reads numBatches, and is mapped to 0. -/
def numBatchesOf (numClusters batchSize : Nat) : Nat :=
  if batchSize = 0 then 0 else (numClusters + batchSize - 1) / batchSize

/-- The per-batch feature branch name (deploy.go 153), the Go expression
fmt.Sprintf with the rollout name, the 1-based batch counter, and
numBatches. -/
def featureBranchName (rollout : String) (counter numBatches : Nat) : String :=
  rollout ++ "__" ++ toString counter ++ "/" ++ toString numBatches

/-- The batch loop of deploy (deploy.go 147-153), stripped to the values it
computes: the loop index starts at 0 and strides by the effective batchSize,
while the slice end is the index plus the RAW configured
hydrationBatchSize, capped at the cluster count, exactly as in the source.
Each iteration yields the feature branch name and the batch slice; a slice
panic yields none. The fuel argument bounds the number of iterations and is
never exhausted when it exceeds the cluster count, because the stride is
positive whenever the loop condition holds. -/
def batchLoopAux (clusters : List String) (rawBatchSize : Int) (batchSize : Nat)
    (rollout : String) (numBatches : Nat) (i counter : Nat) :
    Nat → Option (List (String × List String))
  | 0 => none
  | fuel + 1 =>
    if i < clusters.length then
      let e : Int := (i : Int) + rawBatchSize
      let e := if e > (clusters.length : Int) then (clusters.length : Int) else e
      match goSlice clusters (i : Int) e with
      | none => none
      | some batch =>
        match batchLoopAux clusters rawBatchSize batchSize rollout numBatches
            (i + batchSize) (counter + 1) fuel with
        | none => none
        | some rest =>
          some ((featureBranchName rollout counter numBatches, batch) :: rest)
    else some []

/-- The batch partitioning performed by deploy (deploy.go 138-153): the list
of (feature branch name, batch) pairs the loop iterates over, in order, or
none when a slice expression panics. -/
def batchLoop (clusters : List String) (rawBatchSize : Int) (rollout : String) :
    Option (List (String × List String)) :=
  let batchSize := effBatchSize clusters.length rawBatchSize
  let numBatches := numBatchesOf clusters.length batchSize
  batchLoopAux clusters rawBatchSize batchSize rollout numBatches 0 1
    (clusters.length + 1)

/-- Result status of a Cloud Deploy result object. -/
inductive ResultStatus
  | succeeded
  | failed
deriving DecidableEq, Repr

/-- The part of clouddeploy.DeployResult that process populates and the
claims observe. -/
structure DeployResultM where
  status : ResultStatus
  failureMessage : String
deriving DecidableEq, Repr

/-- Observable outcome of one run of process: the result objects uploaded to
GCS, in order, and the Go error value process returns (none models a nil
error). -/
structure ProcessRun where
  uploaded : List DeployResultM
  ret : Option String
deriving DecidableEq, Repr

/-- Go process (deploy.go 47-77), with the deploy call and the GCS upload
abstracted as outcome parameters. On a deploy error e it builds a failed
result carrying the message of e and uploads it. In the failure branch the
statement uploading the result declares a fresh err with a short variable
declaration, shadowing the deploy error, so when the upload succeeds the
subsequent return err returns the shadowed nil value, not the deploy
error. -/
def process (deployOutcome : Except String DeployResultM)
    (uploadOutcome : Except String String) : ProcessRun :=
  match deployOutcome with
  | .error e =>
    let dr : DeployResultM := { status := .failed, failureMessage := e }
    match uploadOutcome with
    | .error uploadErr =>
      { uploaded := [dr],
        ret := some ("error uploading failed deploy results: " ++ uploadErr) }
    | .ok _ => { uploaded := [dr], ret := none }
  | .ok res =>
    match uploadOutcome with
    | .error uploadErr =>
      { uploaded := [res],
        ret := some ("error uploading deploy results: " ++ uploadErr) }
    | .ok _ => { uploaded := [res], ret := none }

/-- A directory entry as listed by Go os.ReadDir: a file, or a directory with
its own entries (so that the recursive os.RemoveAll removal of a subtree is
expressible). -/
inductive FsEntry
  | file (name : String)
  | dir (name : String) (children : List FsEntry)

/-- The name of a directory entry. -/
def FsEntry.name : FsEntry → String
  | .file n => n
  | .dir n _ => n

/-- Go cleanHydratedDirectory (deploy.go 540-567), acting on the listed
entries of the directory: entries named .gitkeep are skipped by the continue
before the kind test; a directory entry is removed with its whole subtree by
os.RemoveAll; a file entry is removed by os.Remove. The result is the list
of entries remaining in the directory. -/
def cleanHydratedDirectory : List FsEntry → List FsEntry
  | [] => []
  | entry :: rest =>
    if entry.name = ".gitkeep" then entry :: cleanHydratedDirectory rest
    else
      match entry with
      | .dir _ _ => cleanHydratedDirectory rest
      | .file _ => cleanHydratedDirectory rest

/-- Observable outcome of one run of runHydrationCLI: the directory handed to
cleanHydratedDirectory, whether that call failed (a value the Go code
discards), the argument lists of the renderer invocations actually run, in
order, and the returned error value. -/
structure HydrationRun where
  cleanedDir : String
  cleanFailed : Bool
  rendererCmds : List (List String)
  result : Option String
deriving DecidableEq, Repr

/-- The fixed renderer argument list built by runHydrationCLI
(deploy.go 577): every path, including the output path, is joined under the
SOURCE repository root. -/
def hydrateArgs (sourceRepo baseLibraryPath overlayPath outputPath sourceOfTruth : String) :
    List String :=
  ["-b", pathJoin sourceRepo baseLibraryPath,
   "-o", pathJoin sourceRepo overlayPath,
   "-y", pathJoin sourceRepo outputPath,
   pathJoin sourceRepo sourceOfTruth]

/-- Go runHydrationCLI (deploy.go 569-588), with the filesystem behavior of
cleanHydratedDirectory abstracted as cleanOutcome (indexed by the directory
being cleaned) and the k-th renderer invocation abstracted as runOutcome k.
An empty output repository falls back to the source repository; the cleaned
directory is joined under the output repository while every renderer
argument is joined under the source repository. The return value of the
cleaning call is discarded, and runCmd is invoked twice with the same
argument list, returning early if either invocation fails. -/
def runHydrationCLI (sourceRepo baseLibraryPath overlayPath outputRepo outputPath
    sourceOfTruth : String) (cleanOutcome : String → Except String Unit)
    (runOutcome : Nat → Except String String) : HydrationRun :=
  let outputRepo := if outputRepo = "" then sourceRepo else outputRepo
  let cleanedDir := pathJoin outputRepo outputPath
  let cleanFailed :=
    match cleanOutcome cleanedDir with
    | .error _ => true
    | .ok _ => false
  let args := hydrateArgs sourceRepo baseLibraryPath overlayPath outputPath sourceOfTruth
  match runOutcome 0 with
  | .error e =>
    { cleanedDir, cleanFailed, rendererCmds := [args], result := some e }
  | .ok _ =>
    match runOutcome 1 with
    | .error e =>
      { cleanedDir, cleanFailed, rendererCmds := [args, args], result := some e }
    | .ok _ =>
      { cleanedDir, cleanFailed, rendererCmds := [args, args], result := none }

/-- One collaborator step of deploy, as observed through the GitWorkspace,
InventoryStore, renderer and GitProvider interfaces. -/
inductive GitEvent
  | setupWorkspace (repo : String)
  | resetWorkspace (repo : String)
  | updateRevisions (batch : List String)
  | hydrate
  | diffCheck (repo : String)
  | commitPush (repo : String)
  | handleDestination (repo : String)
  | sleepBetween
deriving DecidableEq, Repr

/-- The sequence of collaborator steps Go deploy performs on the path where
every step succeeds, for a given list of batches (deploy.go 89-219). The
guards around the output-repository steps compare the configured repository
reference strings at lines 112 and 160, and the two workspace pointers at
line 192; the pointers are equal exactly when the reference strings are,
because line 124 aliases the output workspace to the source workspace in
that case and line 119 allocates a fresh one otherwise. -/
def deployTrace (sourceRepoRef outputRepoRef : String)
    (batches : List (List String)) : List GitEvent :=
  [.setupWorkspace sourceRepoRef] ++
  (if sourceRepoRef ≠ outputRepoRef then [.setupWorkspace outputRepoRef] else []) ++
  batches.flatMap (fun batch =>
    [.resetWorkspace sourceRepoRef] ++
    (if sourceRepoRef ≠ outputRepoRef then [.resetWorkspace outputRepoRef] else []) ++
    [.updateRevisions batch, .hydrate, .diffCheck sourceRepoRef,
     .commitPush sourceRepoRef, .handleDestination sourceRepoRef] ++
    (if sourceRepoRef ≠ outputRepoRef then
      [.diffCheck outputRepoRef, .commitPush outputRepoRef,
       .handleDestination outputRepoRef] else []) ++
    [.sleepBetween])

/-! Shared helper lemmas. -/

/-- Filtering through an if-guarded filterMap is mapping over a filter. -/
theorem filterMap_ite_eq_map_filter {α β : Type} (p : α → Bool) (f : α → β)
    (l : List α) :
    l.filterMap (fun a => if p a then some (f a) else none) =
      (l.filter p).map f := by
  induction l with
  | nil => rfl
  | cons a l ih =>
    by_cases h : p a <;> simp [List.filterMap_cons, List.filter_cons, h, ih]

/-- On a header containing every requested field, with at least one field
requested, findFieldIndices succeeds and records the first occurrence index
of each field. -/
theorem findFieldIndices_ok (header fields : List String)
    (hall : ∀ f ∈ fields, header.contains f) (hne : fields ≠ []) :
    findFieldIndices header fields =
      .ok (fields.map (fun f => (f, header.indexOf f))) := by
  obtain ⟨f, hf⟩ := List.exists_mem_of_ne_nil fields hne
  have hfh : header.contains f := hall f hf
  have hh : header.length ≠ 0 := by
    intro h0
    rw [List.length_eq_zero] at h0
    subst h0
    simp at hfh
  have hmem : ∀ g ∈ fields, g ∈ header := by
    intro g hg
    simpa using hall g hg
  have hmiss : fields.filter (fun f => ¬ header.contains f) = [] := by
    rw [List.filter_eq_nil_iff]
    intro g hg
    simp [hmem g hg]
  simp only [findFieldIndices, hmiss]
  simp [hh, hmem]

/-- A count over flatMap is the list length when every piece holds exactly
one occurrence. -/
theorem count_flatMap_of_count_one {α β : Type} [DecidableEq β]
    (l : List α) (f : α → List β) (e : β) (h : ∀ a, (f a).count e = 1) :
    (l.flatMap f).count e = l.length := by
  induction l with
  | nil => rfl
  | cons a l ih =>
    simp [List.flatMap_cons, List.count_append, h a, ih, Nat.add_comm]

/-- Joining distinct nonempty left components under pathJoin keeps the
results distinct. -/
theorem pathJoin_left_ne (a b p : String) (ha : a ≠ "") (hab : a ≠ b) :
    pathJoin a p ≠ pathJoin b p := by
  unfold pathJoin
  rw [if_neg ha]
  by_cases hb : b = ""
  · subst hb
    rw [if_pos rfl]
    by_cases hp : p = ""
    · subst hp
      rw [if_pos rfl]
      exact ha
    · rw [if_neg hp]
      intro h
      have hlen := congrArg String.length h
      simp only [String.length_append] at hlen
      have h1 : ("/" : String).length = 1 := rfl
      have h2 : 0 < a.length := by
        cases a with
        | mk data =>
          cases data with
          | nil => simp at ha
          | cons c cs => simp [String.length]
      omega
  · rw [if_neg hb]
    by_cases hp : p = ""
    · subst hp
      rw [if_pos rfl, if_pos rfl]
      exact hab
    · rw [if_neg hp, if_neg hp]
      intro h
      apply hab
      have hdata := congrArg String.data h
      simp only [String.data_append] at hdata
      have h1 := List.append_cancel_right hdata
      have h2 := List.append_cancel_right h1
      exact String.ext h2

/-! Claims. -/

/-- C1: for a deploy invocation whose deploy step fails with error e, process
uploads a failure result carrying the message of e, but when that upload
succeeds, process returns nil rather than e: the short variable declaration
at the upload call shadows the deploy error, so the run is reported to the
caller as a success. This evaluates process at such a failing input. -/
theorem process_failed_deploy_successful_upload_returns_nil :
    process (.error "deploy boom") (.ok "gs://bucket/results") =
      { uploaded := [{ status := .failed, failureMessage := "deploy boom" }],
        ret := none } := rfl

/-- C2: with two selected clusters and a configured batch size of 0, the
batch loop performs exactly one iteration whose batch is the EMPTY slice,
not a batch holding both clusters: the slice end is computed from the raw
configured batch size while only the stride uses the effective one. The
branch name still encodes batch 1 of 1 computed from the effective size. -/
theorem batchLoop_zero_batch_size_gives_empty_batch :
    batchLoop ["cluster1", "cluster2"] 0 "rollout" =
      some [("rollout__1/1", [])] := by rfl

/-- C3: runHydrationCLI invokes the external renderer TWICE per batch, not
once, each time with the fixed argument list whose four paths are all
resolved under the source repository root. This evaluates the hydration step
at an input where both invocations succeed. -/
theorem runHydrationCLI_renderer_invoked_twice :
    (runHydrationCLI "srcrepo" "base_library" "overlays" "outrepo" "output"
        "source_of_truth.csv" (fun _ => .ok ()) (fun _ => .ok "")).rendererCmds =
      [["-b", "srcrepo/base_library", "-o", "srcrepo/overlays",
        "-y", "srcrepo/output", "srcrepo/source_of_truth.csv"],
       ["-b", "srcrepo/base_library", "-o", "srcrepo/overlays",
        "-y", "srcrepo/output", "srcrepo/source_of_truth.csv"]] := rfl

/-- C8: cleanHydratedDirectory keeps exactly the entries named .gitkeep,
removing every other file and every other subdirectory together with its
subtree, and running it twice yields the same directory state as running it
once. -/
theorem cleanHydratedDirectory_keeps_only_gitkeep (entries : List FsEntry) :
    cleanHydratedDirectory entries =
      entries.filter (fun e => e.name == ".gitkeep") ∧
    cleanHydratedDirectory (cleanHydratedDirectory entries) =
      cleanHydratedDirectory entries := by
  have hspec : ∀ l : List FsEntry,
      cleanHydratedDirectory l = l.filter (fun e => e.name == ".gitkeep") := by
    intro l
    induction l with
    | nil => rfl
    | cons e rest ih =>
      by_cases h : e.name = ".gitkeep"
      · simp [cleanHydratedDirectory, h, List.filter_cons, ih]
      · cases e with
        | file n => simp_all [cleanHydratedDirectory, List.filter_cons, FsEntry.name]
        | dir n children =>
          simp_all [cleanHydratedDirectory, List.filter_cons, FsEntry.name]
  refine ⟨hspec entries, ?_⟩
  rw [hspec entries, hspec (entries.filter _), List.filter_filter]
  simp

/-- C9: the return value of cleanHydratedDirectory is discarded by
runHydrationCLI, so the renderer invocations performed and the overall
result of the hydration step are independent of the cleanup outcome, the
renderer is still invoked after a failed cleanup, and the batch never fails
because of the cleanup failure. -/
theorem runHydrationCLI_ignores_cleanup_failure
    (src base overlay outRepo outPath sot : String)
    (cleanOutcome1 cleanOutcome2 : String → Except String Unit)
    (runOutcome : Nat → Except String String) :
    (runHydrationCLI src base overlay outRepo outPath sot cleanOutcome1
        runOutcome).rendererCmds =
      (runHydrationCLI src base overlay outRepo outPath sot cleanOutcome2
        runOutcome).rendererCmds ∧
    (runHydrationCLI src base overlay outRepo outPath sot cleanOutcome1
        runOutcome).result =
      (runHydrationCLI src base overlay outRepo outPath sot cleanOutcome2
        runOutcome).result ∧
    (runHydrationCLI src base overlay outRepo outPath sot cleanOutcome1
        runOutcome).rendererCmds ≠ [] := by
  unfold runHydrationCLI
  cases runOutcome 0 <;> cases runOutcome 1 <;> simp

/-- On a header lacking at least one requested field, findFieldIndices fails
naming exactly the missing fields in the requested order; the empty-header
early return agrees with this description because every field is then
missing. -/
theorem findFieldIndices_missing (header fields : List String)
    (h : fields.filter (fun f => ¬ header.contains f) ≠ []) :
    findFieldIndices header fields =
      .error (.fieldsNotFound (fields.filter (fun f => ¬ header.contains f))) := by
  unfold findFieldIndices
  by_cases hh : header.length = 0
  · rw [if_pos hh]
    have hempty : header = [] := List.length_eq_zero.mp hh
    subst hempty
    have hself : fields.filter (fun f => ¬ ([] : List String).contains f) = fields := by
      apply List.filter_eq_self.mpr
      intro a ha
      simp
    rw [hself]
  · rw [if_neg hh]
    have hlen : 0 < (fields.filter (fun f => ¬ header.contains f)).length :=
      List.length_pos.mpr h
    rw [if_pos hlen]

/-- The selection loop body agrees pointwise with the selection predicate of
the specification. -/
theorem recordSelection_eq_spec (g : String) (matchAny matchAll : List String)
    (ni gi ti : Nat) (r : List String) :
    recordSelection g matchAny matchAll ni gi ti r =
      if specSelected g matchAny matchAll (r.getD gi "") (parseTags (r.getD ti ""))
      then some (r.getD ni "") else none := by
  unfold recordSelection specSelected
  generalize (r.getD gi "" : String) = gcell
  generalize (r.getD ni "" : String) = ncell
  generalize (parseTags (r.getD ti "") : List String) = tags
  by_cases hgr : g = gcell
  · subst hgr
    by_cases hA : matchAny = []
    · subst hA
      by_cases hB : matchAll = []
      · subst hB
        simp
      · simp [hB, matchesAllTags, List.length_eq_zero]
    · have hA2 : 0 < matchAny.length := List.length_pos.mpr hA
      simp [hA, hA2, matchesAnyTags, List.length_eq_zero]
  · have hgr2 : ¬ (gcell = g) := fun hx => hgr hx.symm
    simp [hgr, hgr2]

/-- C4 counterexample: on an empty inventory (no parsed records at all),
determineClustersToUpdate does NOT return the fields-not-found error naming
the three required columns: the Go expression records[0] panics with an
index out of range before findFieldIndices can run. -/
theorem determineClustersToUpdate_empty_file_panics :
    determineClustersToUpdate [] "groupA" [] [] = .error .panicOutOfRange ∧
    determineClustersToUpdate [] "groupA" [] [] ≠
      .error (.fieldsNotFound ["cluster_name", "cluster_group", "cluster_tags"]) := by
  exact ⟨rfl, by decide⟩

/-- C4 (amended): whenever the header row lacks at least one of the required
columns cluster_name, cluster_group, cluster_tags,
determineClustersToUpdate fails with a fields-not-found error naming exactly
the missing columns, in the order the columns were requested. When the
parsed file is empty the code instead panics at records[0]
(see the counterexample), although findFieldIndices itself, handed an empty
header, would report all three columns missing. -/
theorem determineClustersToUpdate_names_missing_fields (header : List String)
    (rows : List (List String)) (g : String) (matchAny matchAll : List String)
    (h : ["cluster_name", "cluster_group", "cluster_tags"].filter
      (fun f => ¬ header.contains f) ≠ []) :
    determineClustersToUpdate (header :: rows) g matchAny matchAll =
      .error (.fieldsNotFound (["cluster_name", "cluster_group", "cluster_tags"].filter
        (fun f => ¬ header.contains f))) := by
  unfold determineClustersToUpdate
  dsimp only
  rw [findFieldIndices_missing header _ h]

/-- Witness for C4: a header holding only cluster_name and an extra column
is missing cluster_group and cluster_tags, in that order. -/
theorem determineClustersToUpdate_names_missing_fields_witness :
    ((["cluster_name", "cluster_group", "cluster_tags"].filter
      (fun f => ¬ (["cluster_name", "extra"] : List String).contains f)) ≠ []) ∧
    determineClustersToUpdate [["cluster_name", "extra"], ["c1", "x"]] "g" [] [] =
      .error (.fieldsNotFound (["cluster_name", "cluster_group", "cluster_tags"].filter
        (fun f => ¬ (["cluster_name", "extra"] : List String).contains f))) :=
  ⟨by decide,
   determineClustersToUpdate_names_missing_fields ["cluster_name", "extra"]
     [["c1", "x"]] "g" [] [] (by decide)⟩

/-- C5: on a valid inventory (header present with the three required
columns), determineClustersToUpdate returns, in file row order and without
deduplication, exactly the cluster names of the data rows selected by the
specification predicate: the cluster_group cell equals the requested group,
and the precedence tag policy holds for the parsed cluster_tags cell. -/
theorem determineClustersToUpdate_spec (header : List String)
    (rows : List (List String)) (g : String) (matchAny matchAll : List String)
    (hn : header.contains "cluster_name") (hg : header.contains "cluster_group")
    (ht : header.contains "cluster_tags") :
    determineClustersToUpdate (header :: rows) g matchAny matchAll =
      .ok ((rows.filter (fun r =>
        specSelected g matchAny matchAll
          (r.getD (header.indexOf "cluster_group") "")
          (parseTags (r.getD (header.indexOf "cluster_tags") "")))).map
        (fun r => r.getD (header.indexOf "cluster_name") "")) := by
  have hall : ∀ f ∈ ["cluster_name", "cluster_group", "cluster_tags"],
      header.contains f := by
    intro f hf
    simp only [List.mem_cons, List.not_mem_nil, or_false] at hf
    rcases hf with rfl | rfl | rfl <;> assumption
  unfold determineClustersToUpdate
  dsimp only
  rw [findFieldIndices_ok header _ hall (by simp)]
  simp only [List.map_cons, List.map_nil]
  have h1 : fieldIdx [("cluster_name", header.indexOf "cluster_name"),
      ("cluster_group", header.indexOf "cluster_group"),
      ("cluster_tags", header.indexOf "cluster_tags")] "cluster_name" =
      header.indexOf "cluster_name" := by
    simp [fieldIdx, List.lookup]
  have h2 : fieldIdx [("cluster_name", header.indexOf "cluster_name"),
      ("cluster_group", header.indexOf "cluster_group"),
      ("cluster_tags", header.indexOf "cluster_tags")] "cluster_group" =
      header.indexOf "cluster_group" := by
    simp [fieldIdx, List.lookup]
  have h3 : fieldIdx [("cluster_name", header.indexOf "cluster_name"),
      ("cluster_group", header.indexOf "cluster_group"),
      ("cluster_tags", header.indexOf "cluster_tags")] "cluster_tags" =
      header.indexOf "cluster_tags" := by
    simp [fieldIdx, List.lookup]
  rw [h1, h2, h3]
  rw [← filterMap_ite_eq_map_filter]
  have hfun : recordSelection g matchAny matchAll (header.indexOf "cluster_name")
      (header.indexOf "cluster_group") (header.indexOf "cluster_tags") =
      fun r => if specSelected g matchAny matchAll
          (r.getD (header.indexOf "cluster_group") "")
          (parseTags (r.getD (header.indexOf "cluster_tags") ""))
        then some (r.getD (header.indexOf "cluster_name") "") else none :=
    funext (fun r => recordSelection_eq_spec g matchAny matchAll _ _ _ r)
  rw [hfun]

/-- Witness for C5, the worked example of the specification: in groupA with
matchAny = [tag1], exactly cluster1 and cluster3 are selected, in row
order. -/
theorem determineClustersToUpdate_spec_witness :
    ((["cluster_name", "cluster_group", "cluster_tags"] : List String).contains
      "cluster_name") ∧
    ((["cluster_name", "cluster_group", "cluster_tags"] : List String).contains
      "cluster_group") ∧
    ((["cluster_name", "cluster_group", "cluster_tags"] : List String).contains
      "cluster_tags") ∧
    determineClustersToUpdate
      [["cluster_name", "cluster_group", "cluster_tags"],
       ["cluster1", "groupA", "tag1,tag2"],
       ["cluster3", "groupA", "tag1,tag4,tag5"],
       ["cluster4", "groupA", "tag2"]] "groupA" ["tag1"] [] =
      .ok ["cluster1", "cluster3"] :=
  ⟨by decide, by decide, by decide, by
    have h := determineClustersToUpdate_spec
      ["cluster_name", "cluster_group", "cluster_tags"]
      [["cluster1", "groupA", "tag1,tag2"],
       ["cluster3", "groupA", "tag1,tag4,tag5"],
       ["cluster4", "groupA", "tag2"]]
      "groupA" ["tag1"] [] (by decide) (by decide) (by decide)
    rw [h]
    decide⟩

/-- Reading a position other than the one written by set is unchanged. -/
theorem getD_set_ne {α : Type} (l : List α) (i j : Nat) (a d : α) (h : i ≠ j) :
    (l.set i a).getD j d = l.getD j d := by
  simp [List.getD_eq_getElem?_getD, List.getElem?_set_ne h]

/-- The per-record update preserves the cell count of the record. -/
theorem updateRecord_length (cns : List String) (p w : String) (ni pi wi : Nat)
    (r : List String) : (updateRecord cns p w ni pi wi r).length = r.length := by
  unfold updateRecord
  dsimp only
  split_ifs <;> simp [List.length_set]

/-- A record whose cluster name is not targeted is left untouched. -/
theorem updateRecord_of_not_mem (cns : List String) (p w : String) (ni pi wi : Nat)
    (r : List String) (h : r.getD ni "" ∉ cns) :
    updateRecord cns p w ni pi wi r = r := by
  have h2 : r[ni]?.getD "" ∉ cns := by
    simpa [List.getD_eq_getElem?_getD] using h
  unfold updateRecord
  simp [h2]

/-- Cells outside the two revision columns are left untouched. -/
theorem updateRecord_getD_other (cns : List String) (p w : String) (ni pi wi : Nat)
    (r : List String) (j : Nat) (hj1 : j ≠ pi) (hj2 : j ≠ wi) :
    (updateRecord cns p w ni pi wi r).getD j "" = r.getD j "" := by
  unfold updateRecord
  dsimp only
  split_ifs
  · rw [getD_set_ne (r.set pi p) wi j w "" (Ne.symm hj2),
      getD_set_ne r pi j p "" (Ne.symm hj1)]
  · rw [getD_set_ne r pi j p "" (Ne.symm hj1)]
  · rw [getD_set_ne r wi j w "" (Ne.symm hj2)]
  · rfl

/-- An empty platform revision leaves the platform cell untouched. -/
theorem updateRecord_platform_unchanged (cns : List String) (w : String)
    (ni pi wi : Nat) (r : List String) (hpw : pi ≠ wi) :
    (updateRecord cns "" w ni pi wi r).getD pi "" = r.getD pi "" := by
  have hbody : updateRecord cns "" w ni pi wi r =
      if cns.contains (r.getD ni "") && decide (0 < w.length)
      then r.set wi w else r := by
    unfold updateRecord
    simp
  rw [hbody]
  split_ifs
  · exact getD_set_ne r wi pi w "" (Ne.symm hpw)
  · rfl

/-- An empty workload revision leaves the workload cell untouched. -/
theorem updateRecord_workload_unchanged (cns : List String) (p : String)
    (ni pi wi : Nat) (r : List String) (hpw : pi ≠ wi) :
    (updateRecord cns p "" ni pi wi r).getD wi "" = r.getD wi "" := by
  have hbody : updateRecord cns p "" ni pi wi r =
      if cns.contains (r.getD ni "") && decide (0 < p.length)
      then r.set pi p else r := by
    unfold updateRecord
    simp
  rw [hbody]
  split_ifs
  · exact getD_set_ne r pi wi p "" hpw
  · rfl



/-- C6: on an inventory whose header holds the three required columns,
updatePlatformAndWorkloadRepositoryRevision succeeds and rewrites the
records so that rows whose cluster name is not targeted are identical to the
input, every cell outside the platform and workload revision columns is
preserved, each revision cell changes only when the corresponding new
revision is non-empty, and the number of rows, the row order (by index
alignment) and the per-row cell counts are preserved. -/
theorem updateRevisions_frame (header : List String) (rows : List (List String))
    (clusterNames : List String) (p w : String)
    (hn : header.contains "cluster_name")
    (hp : header.contains "platform_repository_revision")
    (hw : header.contains "workload_repository_revision") :
    ∃ out,
      updatePlatformAndWorkloadRepositoryRevision (header :: rows) clusterNames p w =
        .ok out ∧
      out.length = (header :: rows).length ∧
      ∀ i : Nat,
        (out.getD i []).length = ((header :: rows).getD i []).length ∧
        (((header :: rows).getD i []).getD (header.indexOf "cluster_name") "" ∉
            clusterNames →
          out.getD i [] = (header :: rows).getD i []) ∧
        (∀ j : Nat, j ≠ header.indexOf "platform_repository_revision" →
          j ≠ header.indexOf "workload_repository_revision" →
          (out.getD i []).getD j "" = ((header :: rows).getD i []).getD j "") ∧
        (p = "" →
          (out.getD i []).getD (header.indexOf "platform_repository_revision") "" =
          ((header :: rows).getD i []).getD
            (header.indexOf "platform_repository_revision") "") ∧
        (w = "" →
          (out.getD i []).getD (header.indexOf "workload_repository_revision") "" =
          ((header :: rows).getD i []).getD
            (header.indexOf "workload_repository_revision") "") := by
  have hall : ∀ f ∈ ["cluster_name", "platform_repository_revision",
      "workload_repository_revision"], header.contains f := by
    intro f hf
    simp only [List.mem_cons, List.not_mem_nil, or_false] at hf
    rcases hf with rfl | rfl | rfl <;> assumption
  have hmemp : "platform_repository_revision" ∈ header := by simpa using hp
  have hmemw : "workload_repository_revision" ∈ header := by simpa using hw
  have hpl : header.indexOf "platform_repository_revision" < header.length :=
    List.indexOf_lt_length.mpr hmemp
  have hwl : header.indexOf "workload_repository_revision" < header.length :=
    List.indexOf_lt_length.mpr hmemw
  have hpw : header.indexOf "platform_repository_revision" ≠
      header.indexOf "workload_repository_revision" := by
    intro he
    have := (List.indexOf_inj hmemp hmemw).mp he
    exact absurd this (by decide)
  unfold updatePlatformAndWorkloadRepositoryRevision
  dsimp only
  rw [findFieldIndices_ok header _ hall (by simp)]
  dsimp only
  have hh1 : fieldIdx (["cluster_name", "platform_repository_revision",
      "workload_repository_revision"].map (fun f => (f, header.indexOf f)))
      "cluster_name" = header.indexOf "cluster_name" := by
    simp [fieldIdx, List.lookup]
  have hh2 : fieldIdx (["cluster_name", "platform_repository_revision",
      "workload_repository_revision"].map (fun f => (f, header.indexOf f)))
      "platform_repository_revision" = header.indexOf "platform_repository_revision" := by
    simp [fieldIdx, List.lookup]
  have hh3 : fieldIdx (["cluster_name", "platform_repository_revision",
      "workload_repository_revision"].map (fun f => (f, header.indexOf f)))
      "workload_repository_revision" = header.indexOf "workload_repository_revision" := by
    simp [fieldIdx, List.lookup]
  rw [hh1, hh2, hh3]
  refine ⟨_, rfl, by simp, ?_⟩
  intro i
  by_cases hi : i < (header :: rows).length
  · have hout : ((header :: rows).map
        (updateRecord clusterNames p w (header.indexOf "cluster_name")
          (header.indexOf "platform_repository_revision")
          (header.indexOf "workload_repository_revision"))).getD i [] =
        updateRecord clusterNames p w (header.indexOf "cluster_name")
          (header.indexOf "platform_repository_revision")
          (header.indexOf "workload_repository_revision")
          ((header :: rows).getD i []) := by
      rw [List.getD_eq_getElem?_getD, List.getD_eq_getElem?_getD,
        List.getElem?_map, List.getElem?_eq_getElem hi]
      rfl
    rw [hout]
    refine ⟨updateRecord_length _ _ _ _ _ _ _,
      fun hmem => updateRecord_of_not_mem _ _ _ _ _ _ _ hmem,
      fun j hj1 hj2 => updateRecord_getD_other _ _ _ _ _ _ _ j hj1 hj2,
      fun hp0 => ?_, fun hw0 => ?_⟩
    · subst hp0
      exact updateRecord_platform_unchanged _ _ _ _ _ _ hpw
    · subst hw0
      exact updateRecord_workload_unchanged _ _ _ _ _ _ hpw
  · have hlen : (header :: rows).length ≤ i := not_lt.mp hi
    have h1 : ((header :: rows).map
        (updateRecord clusterNames p w (header.indexOf "cluster_name")
          (header.indexOf "platform_repository_revision")
          (header.indexOf "workload_repository_revision"))).getD i [] = [] := by
      rw [List.getD_eq_getElem?_getD, List.getElem?_eq_none (by simpa using hlen)]
      rfl
    have h2 : (header :: rows).getD i [] = [] := by
      rw [List.getD_eq_getElem?_getD, List.getElem?_eq_none hlen]
      rfl
    rw [h1, h2]
    simp

/-- Witness for C6: a two-row inventory with an extra column, updating only
cluster c1 with an empty platform revision and workload revision w9. -/
theorem updateRevisions_frame_witness :
    ((["cluster_name", "platform_repository_revision",
      "workload_repository_revision", "other"] : List String).contains
      "cluster_name") ∧
    ((["cluster_name", "platform_repository_revision",
      "workload_repository_revision", "other"] : List String).contains
      "platform_repository_revision") ∧
    ((["cluster_name", "platform_repository_revision",
      "workload_repository_revision", "other"] : List String).contains
      "workload_repository_revision") ∧
    (∃ out,
      updatePlatformAndWorkloadRepositoryRevision
        [["cluster_name", "platform_repository_revision",
          "workload_repository_revision", "other"],
         ["c1", "p0", "w0", "o1"], ["c2", "p0", "w0", "o2"]]
        ["c1"] "" "w9" = .ok out ∧
      out.length = ([["cluster_name", "platform_repository_revision",
          "workload_repository_revision", "other"],
         ["c1", "p0", "w0", "o1"], ["c2", "p0", "w0", "o2"]] :
           List (List String)).length ∧
      ∀ i : Nat,
        (out.getD i []).length =
          (([["cluster_name", "platform_repository_revision",
            "workload_repository_revision", "other"],
           ["c1", "p0", "w0", "o1"],
           ["c2", "p0", "w0", "o2"]] : List (List String)).getD i []).length ∧
        ((([["cluster_name", "platform_repository_revision",
            "workload_repository_revision", "other"],
           ["c1", "p0", "w0", "o1"],
           ["c2", "p0", "w0", "o2"]] : List (List String)).getD i []).getD
            ((["cluster_name", "platform_repository_revision",
              "workload_repository_revision", "other"] : List String).indexOf
              "cluster_name") "" ∉ (["c1"] : List String) →
          out.getD i [] =
            ([["cluster_name", "platform_repository_revision",
              "workload_repository_revision", "other"],
             ["c1", "p0", "w0", "o1"],
             ["c2", "p0", "w0", "o2"]] : List (List String)).getD i []) ∧
        (∀ j : Nat,
          j ≠ (["cluster_name", "platform_repository_revision",
            "workload_repository_revision", "other"] : List String).indexOf
            "platform_repository_revision" →
          j ≠ (["cluster_name", "platform_repository_revision",
            "workload_repository_revision", "other"] : List String).indexOf
            "workload_repository_revision" →
          (out.getD i []).getD j "" =
            (([["cluster_name", "platform_repository_revision",
              "workload_repository_revision", "other"],
             ["c1", "p0", "w0", "o1"],
             ["c2", "p0", "w0", "o2"]] : List (List String)).getD i []).getD j "") ∧
        (("" : String) = "" →
          (out.getD i []).getD
            ((["cluster_name", "platform_repository_revision",
              "workload_repository_revision", "other"] : List String).indexOf
              "platform_repository_revision") "" =
            (([["cluster_name", "platform_repository_revision",
              "workload_repository_revision", "other"],
             ["c1", "p0", "w0", "o1"],
             ["c2", "p0", "w0", "o2"]] : List (List String)).getD i []).getD
              ((["cluster_name", "platform_repository_revision",
                "workload_repository_revision", "other"] : List String).indexOf
                "platform_repository_revision") "") ∧
        (("w9" : String) = "" →
          (out.getD i []).getD
            ((["cluster_name", "platform_repository_revision",
              "workload_repository_revision", "other"] : List String).indexOf
              "workload_repository_revision") "" =
            (([["cluster_name", "platform_repository_revision",
              "workload_repository_revision", "other"],
             ["c1", "p0", "w0", "o1"],
             ["c2", "p0", "w0", "o2"]] : List (List String)).getD i []).getD
              ((["cluster_name", "platform_repository_revision",
                "workload_repository_revision", "other"] : List String).indexOf
                "workload_repository_revision") "")) :=
  ⟨by decide, by decide, by decide,
   updateRevisions_frame
     ["cluster_name", "platform_repository_revision",
      "workload_repository_revision", "other"]
     [["c1", "p0", "w0", "o1"], ["c2", "p0", "w0", "o2"]]
     ["c1"] "" "w9" (by decide) (by decide) (by decide)⟩

/-- A count over flatMap vanishes when every piece holds no occurrence. -/
theorem count_flatMap_of_count_zero {α β : Type} [DecidableEq β]
    (l : List α) (f : α → List β) (e : β) (h : ∀ a, (f a).count e = 0) :
    (l.flatMap f).count e = 0 := by
  induction l with
  | nil => rfl
  | cons a l ih => simp [List.flatMap_cons, List.count_append, h a, ih]

/-- C7: when the configured source and output repository references are
identical, the success-path trace of deploy sets up one workspace once for
the whole run and performs, per batch, exactly one workspace reset, one
inventory update, one hydration, one diff check, one commit-and-push and one
pull-request handling: none of the output-repository duplicate steps run a
second time. -/
theorem deployTrace_unified_once_per_batch (s o : String)
    (batches : List (List String)) (h : s = o) :
    deployTrace s o batches =
      .setupWorkspace s :: batches.flatMap (fun batch =>
        [.resetWorkspace s, .updateRevisions batch, .hydrate, .diffCheck s,
         .commitPush s, .handleDestination s, .sleepBetween]) ∧
    (deployTrace s o batches).count (.setupWorkspace s) = 1 ∧
    (deployTrace s o batches).count (.resetWorkspace s) = batches.length ∧
    (deployTrace s o batches).count (.diffCheck s) = batches.length ∧
    (deployTrace s o batches).count (.commitPush s) = batches.length ∧
    (deployTrace s o batches).count (.handleDestination s) = batches.length := by
  subst h
  have htrace : deployTrace s s batches =
      .setupWorkspace s :: batches.flatMap (fun batch =>
        [.resetWorkspace s, .updateRevisions batch, .hydrate, .diffCheck s,
         .commitPush s, .handleDestination s, .sleepBetween]) := by
    simp [deployTrace]
  refine ⟨htrace, ?_, ?_, ?_, ?_, ?_⟩ <;> rw [htrace, List.count_cons]
  · rw [count_flatMap_of_count_zero _ _ _ (fun b => by simp [List.count_cons])]
    simp
  · rw [count_flatMap_of_count_one _ _ _ (fun b => by simp [List.count_cons])]
    simp
  · rw [count_flatMap_of_count_one _ _ _ (fun b => by simp [List.count_cons])]
    simp
  · rw [count_flatMap_of_count_one _ _ _ (fun b => by simp [List.count_cons])]
    simp
  · rw [count_flatMap_of_count_one _ _ _ (fun b => by simp [List.count_cons])]
    simp

/-- Witness for C7: a unified-repository deploy over two batches. -/
theorem deployTrace_unified_once_per_batch_witness :
    (("github.com/owner/repo" : String) = "github.com/owner/repo") ∧
    (deployTrace "github.com/owner/repo" "github.com/owner/repo"
        [["cluster1"], ["cluster2"]] =
      .setupWorkspace "github.com/owner/repo" ::
        ([["cluster1"], ["cluster2"]] : List (List String)).flatMap (fun batch =>
          [.resetWorkspace "github.com/owner/repo", .updateRevisions batch,
           .hydrate, .diffCheck "github.com/owner/repo",
           .commitPush "github.com/owner/repo",
           .handleDestination "github.com/owner/repo", .sleepBetween]) ∧
    (deployTrace "github.com/owner/repo" "github.com/owner/repo"
        [["cluster1"], ["cluster2"]]).count
      (.setupWorkspace "github.com/owner/repo") = 1 ∧
    (deployTrace "github.com/owner/repo" "github.com/owner/repo"
        [["cluster1"], ["cluster2"]]).count
      (.resetWorkspace "github.com/owner/repo") =
        ([["cluster1"], ["cluster2"]] : List (List String)).length ∧
    (deployTrace "github.com/owner/repo" "github.com/owner/repo"
        [["cluster1"], ["cluster2"]]).count
      (.diffCheck "github.com/owner/repo") =
        ([["cluster1"], ["cluster2"]] : List (List String)).length ∧
    (deployTrace "github.com/owner/repo" "github.com/owner/repo"
        [["cluster1"], ["cluster2"]]).count
      (.commitPush "github.com/owner/repo") =
        ([["cluster1"], ["cluster2"]] : List (List String)).length ∧
    (deployTrace "github.com/owner/repo" "github.com/owner/repo"
        [["cluster1"], ["cluster2"]]).count
      (.handleDestination "github.com/owner/repo") =
        ([["cluster1"], ["cluster2"]] : List (List String)).length) :=
  ⟨rfl, deployTrace_unified_once_per_batch "github.com/owner/repo"
    "github.com/owner/repo" [["cluster1"], ["cluster2"]] rfl⟩

/-- C10: whenever the output repository name is non-empty and differs from
the source repository name, the directory runHydrationCLI clears is the
output directory under the OUTPUT repository, while the -y argument handed
to the renderer (position 5 of the argument list) is the output directory
under the SOURCE repository, so the directory passed to the renderer is
never the directory that was cleared. -/
theorem runHydrationCLI_clears_other_directory
    (src base overlay outRepo outPath sot : String)
    (cleanOutcome : String → Except String Unit)
    (runOutcome : Nat → Except String String)
    (hne : outRepo ≠ "") (hdiff : outRepo ≠ src) :
    (runHydrationCLI src base overlay outRepo outPath sot cleanOutcome
      runOutcome).cleanedDir = pathJoin outRepo outPath ∧
    (∀ cmd ∈ (runHydrationCLI src base overlay outRepo outPath sot cleanOutcome
      runOutcome).rendererCmds, cmd.getD 5 "" = pathJoin src outPath) ∧
    (runHydrationCLI src base overlay outRepo outPath sot cleanOutcome
      runOutcome).cleanedDir ≠ pathJoin src outPath := by
  have hineq := pathJoin_left_ne outRepo src outPath hne hdiff
  unfold runHydrationCLI
  cases h0 : runOutcome 0 <;> cases h1 : runOutcome 1 <;>
    simp [hne, hydrateArgs, hineq]

/-- Witness for C10: distinct source and output repositories. -/
theorem runHydrationCLI_clears_other_directory_witness :
    (("outrepo" : String) ≠ "") ∧ (("outrepo" : String) ≠ "srcrepo") ∧
    ((runHydrationCLI "srcrepo" "base_library" "overlays" "outrepo" "output"
      "source_of_truth.csv" (fun _ => .ok ()) (fun _ => .ok "")).cleanedDir =
        pathJoin "outrepo" "output" ∧
    (∀ cmd ∈ (runHydrationCLI "srcrepo" "base_library" "overlays" "outrepo"
      "output" "source_of_truth.csv" (fun _ => .ok ())
      (fun _ => .ok "")).rendererCmds,
      cmd.getD 5 "" = pathJoin "srcrepo" "output") ∧
    (runHydrationCLI "srcrepo" "base_library" "overlays" "outrepo" "output"
      "source_of_truth.csv" (fun _ => .ok ()) (fun _ => .ok "")).cleanedDir ≠
        pathJoin "srcrepo" "output") :=
  ⟨by decide, by decide,
   runHydrationCLI_clears_other_directory "srcrepo" "base_library" "overlays"
     "outrepo" "output" "source_of_truth.csv" (fun _ => .ok ())
     (fun _ => .ok "") (by decide) (by decide)⟩

end GitDeploy
